import Mathlib

/-!
Verification development for the GuideCX API wrapper (src/GuideCX.py).

The repository is a thin Python client around a project-management REST API.
Its core is the argument-validation layer: four operations
(createPendingProject, getTasksByProject, getTasks, updateTask) validate
their keyword arguments against inline JSON-Schema (draft-04) documents via
jsonschema.validate, wrapped in try/except that converts any validation
error into ValueError('Invalid argument(s)!'); on success the validated
keyword dictionary is sent verbatim as the query string or JSON body.

This file shallowly embeds:
  - JSON values (numbers as Int; the claims only exercise integers),
  - the draft-04 keyword subset used by the source schemas
    (type, pattern, enum, minimum, maximum, exclusiveMaximum, minItems,
    uniqueItems, items, properties, required, additionalProperties),
  - the regular-expression patterns of the source, with Python re.search
    semantics: patterns are anchored with a caret so a match must start at
    position 0, and a dollar anchor also accepts one trailing newline,
  - each operation of the dispatcher as a function from its arguments to
    either an error string (the raised exception's message) or the request
    descriptor handed to the requests library.

The source file contains unresolved git merge-conflict markers; the HEAD
side (the one carrying getTasks/getTasksByProject, additionalProperties
False on the updateTask schema, and string types on its date fields) is
the side embedded here, matching the spec.

A deliberate infidelity of the Python source is preserved: the method
Note is declared without a self parameter but invoked as a bound method
(self.Note(text, userEmail, internalOnly)), so the instance is prepended
and the call passes four positional arguments to a function accepting at
most three; CPython raises TypeError.  The note operations model this
arity check explicitly.
-/

set_option maxHeartbeats 1600000

/-- JSON values.  Numbers are modelled as integers: every numeric literal in
the source schemas and in the claims is an integer. -/
inductive JSON where
  | str (s : String)
  | num (n : Int)
  | bool (b : Bool)
  | null
  | arr (elems : List JSON)
  | obj (fields : List (String × JSON))
deriving Repr

/-- Structural equality on JSON values, used by the uniqueItems keyword
(jsonschema compares array items with Python ==, i.e. structurally). -/
def jeq : JSON → JSON → Bool
  | .str a, .str b => a == b
  | .num a, .num b => a == b
  | .bool a, .bool b => a == b
  | .null, .null => true
  | .arr xs, .arr ys =>
      xs.length == ys.length &&
      (List.zip xs ys).attach.all fun p => jeq p.1.1 p.1.2
  | .obj xs, .obj ys =>
      xs.length == ys.length &&
      (List.zip xs ys).attach.all fun p => p.1.1.1 == p.1.2.1 && jeq p.1.1.2 p.1.2.2
  | _, _ => false
termination_by a _ => sizeOf a
decreasing_by
  · rcases p with ⟨⟨x, y⟩, hmem⟩
    have h2 := List.sizeOf_lt_of_mem (List.of_mem_zip hmem).1
    simp only [JSON.arr.sizeOf_spec]
    omega
  · rcases p with ⟨⟨⟨k1, v1⟩, k2, v2⟩, hmem⟩
    have h2 := List.sizeOf_lt_of_mem (List.of_mem_zip hmem).1
    simp only [Prod.mk.sizeOf_spec] at h2
    simp only [JSON.obj.sizeOf_spec]
    omega

/-- Does the list contain two structurally equal items? -/
def hasDup : List JSON → Bool
  | [] => false
  | x :: rest => rest.any (jeq x) || hasDup rest

/-- Dictionary lookup on a keyword-argument list (Python dicts have unique
keys, so first-match lookup agrees with dict access). -/
def lookupStr : List (String × JSON) → String → Option JSON
  | [], _ => none
  | p :: rest, k => if p.1 = k then some p.2 else lookupStr rest k

/- Character classes of the Python regular expressions, restricted to the
ASCII range (the source data is ASCII). -/

/-- Python regex class backslash-d. -/
def digitChar (c : Char) : Bool := 48 ≤ c.toNat && c.toNat ≤ 57

/-- Python regex class backslash-s (ASCII part): space, tab, newline,
carriage return, vertical tab, form feed. -/
def pySpace (c : Char) : Bool :=
  c.toNat = 32 || c.toNat = 9 || c.toNat = 10 || c.toNat = 13 || c.toNat = 11 || c.toNat = 12

/-- Split a character list at every occurrence of the separator; the
separator is not kept.  Always returns at least one (possibly empty) part. -/
def splitOnChar (sep : Char) : List Char → List (List Char)
  | [] => [[]]
  | c :: rest =>
      if c = sep then [] :: splitOnChar sep rest
      else match splitOnChar sep rest with
        | g :: gs => (c :: g) :: gs
        | [] => [[c]]

/-- The year part of the source date pattern: exactly four digits. -/
def yearOK : List Char → Bool
  | [a, b, c, d] => digitChar a && digitChar b && digitChar c && digitChar d
  | _ => false

/-- The month alternation of the source date pattern: 0?[1-9] or 1[012],
transliterated clause by clause. -/
def monthOK : List Char → Bool
  | [c] => 49 ≤ c.toNat && c.toNat ≤ 57
  | [a, c] =>
      (a.toNat = 48 && 49 ≤ c.toNat && c.toNat ≤ 57) ||
      (a.toNat = 49 && (c.toNat = 48 || c.toNat = 49 || c.toNat = 50))
  | _ => false

/-- The day alternation of the source date pattern: 0?[1-9], [12][0-9]
or 3[01], transliterated clause by clause. -/
def dayOK : List Char → Bool
  | [c] => 49 ≤ c.toNat && c.toNat ≤ 57
  | [a, c] =>
      (a.toNat = 48 && 49 ≤ c.toNat && c.toNat ≤ 57) ||
      ((a.toNat = 49 || a.toNat = 50) && 48 ≤ c.toNat && c.toNat ≤ 57) ||
      (a.toNat = 51 && (c.toNat = 48 || c.toNat = 49))
  | _ => false

/-- Match of the date pattern body (caret digits-4 hyphen month hyphen day
dollar) against the whole character list.  Since the hyphen cannot occur
inside any of the three groups, the grouping is forced by the hyphen
positions. -/
def dateCore (cs : List Char) : Bool :=
  match splitOnChar '-' cs with
  | [y, m, d] => yearOK y && monthOK m && dayOK d
  | _ => false

/-- Python re semantics for a pattern anchored by caret and dollar: the
dollar also matches just before a single newline that ends the string. -/
def pyAnchored (core : List Char → Bool) (cs : List Char) : Bool :=
  core cs || (cs.getLast? == some '\n' && core cs.dropLast)

/-- Nonempty run of non-whitespace characters filling the whole list
(the regex piece backslash-S plus at the end of the email pattern). -/
def nonspaceTail (cs : List Char) : Bool :=
  !cs.isEmpty && cs.all fun c => !pySpace c

/-- After at least one character of the leading backslash-S plus has been
consumed: either split at an at-sign here (the rest must be a nonempty
non-whitespace tail) or consume the current character as part of the
leading run and continue. -/
def emailRest : List Char → Bool
  | [] => false
  | c :: rest =>
      if c = '@' then nonspaceTail rest || emailRest rest
      else !pySpace c && emailRest rest

/-- Exact match of the email pattern body (caret backslash-S plus, at-sign,
backslash-S plus, dollar): the at-sign itself is a non-whitespace character,
so the engine may also backtrack past it. -/
def emailCore : List Char → Bool
  | [] => false
  | c :: rest => !pySpace c && emailRest rest

/-- ASCII letter, the class [A-Za-z] of the domain pattern. -/
def alphaChar (c : Char) : Bool :=
  (65 ≤ c.toNat && c.toNat ≤ 90) || (97 ≤ c.toNat && c.toNat ≤ 122)

/-- Label character class [A-Za-z0-9-] of the domain pattern. -/
def labelChar (c : Char) : Bool := alphaChar c || digitChar c || c.toNat = 45

/-- One domain label: 1 to 63 label characters, not starting with a hyphen
(the lookahead) and not ending with one (the lookbehind). -/
def labelOK (l : List Char) : Bool :=
  decide (1 ≤ l.length) && decide (l.length ≤ 63) && l.all labelChar &&
  !(l.head? == some '-') && !(l.getLast? == some '-')

/-- At least two leading ASCII letters: the pattern ends in [A-Za-z]{2,6}
with no dollar anchor, so under re.search any continuation is accepted once
two letters follow the final consumed dot. -/
def twoAlpha : List Char → Bool
  | a :: b :: _ => alphaChar a && alphaChar b
  | _ => false

/-- Try every way of reading one or more dot-terminated labels followed by
the letter run.  Labels cannot contain a dot, so label boundaries coincide
with the dot-separated segments. -/
def domainSegs : List (List Char) → Bool
  | l :: s :: rest => labelOK l && (twoAlpha s || domainSegs (s :: rest))
  | _ => false

/-- Prefix match of the domain pattern (caret-anchored, no dollar). -/
def domainCore (cs : List Char) : Bool := domainSegs (splitOnChar '.' cs)

/-- The three regular expressions occurring in the source schemas. -/
inductive Pat where
  | date
  | email
  | domain
deriving Repr, DecidableEq

/-- Pattern keyword check, with the re.search semantics of jsonschema. -/
def Pat.check : Pat → String → Bool
  | .date, s => pyAnchored dateCore s.toList
  | .email, s => pyAnchored emailCore s.toList
  | .domain, s => domainCore s.toList

/-- Scalar type keywords occurring in the source schemas (array and object
types are carried by the structured constraints below). -/
inductive LeafType where
  | string
  | number
deriving Repr, DecidableEq

/-- Constraint of one scalar field or scalar array item: the draft-04
keywords type, pattern, enum, minimum, maximum, exclusiveMaximum. -/
structure Leaf where
  ty : Option LeafType
  pat : Option Pat
  enumVals : Option (List String)
  minVal : Option Int
  maxVal : Option Int
  exMax : Bool
deriving Repr

/-- Leaf of the kind type: string. -/
def strLeaf : Leaf := ⟨some .string, none, none, none, none, false⟩

/-- Leaf of the kind type: string with a pattern. -/
def strPatLeaf (p : Pat) : Leaf := ⟨some .string, some p, none, none, none, false⟩

/-- Leaf of the kind type: number with a minimum. -/
def numMinLeaf (m : Int) : Leaf := ⟨some .number, none, none, some m, none, false⟩

/-- The limit constraint of the task-filter schemas: type number,
minimum 0, maximum 50, exclusiveMaximum true. -/
def limitLeaf : Leaf := ⟨some .number, none, none, some 0, some 50, true⟩

/-- Leaf with only an enum keyword (no type), as on the status items. -/
def enumLeaf (xs : List String) : Leaf := ⟨none, none, some xs, none, none, false⟩

/-- Leaf of the kind type: string with an enum. -/
def strEnumLeaf (xs : List String) : Leaf := ⟨some .string, none, some xs, none, none, false⟩

/-- Constraint of array items that are objects (type: object, an
additionalProperties flag, required names, and scalar properties). -/
structure ObjItemSchema where
  addOk : Bool
  required : List String
  props : List (String × Leaf)
deriving Repr

/-- The items keyword of an array field. -/
inductive Items where
  | leaf (l : Leaf)
  | obj (o : ObjItemSchema)
deriving Repr

/-- Constraint of one top-level schema property. -/
inductive FieldC where
  | leaf (l : Leaf)
  | array (minItems : Option Nat) (unique : Bool) (items : Items)
deriving Repr

/-- One operation schema: the additionalProperties flag, the required
names, and the property constraints, in source order. -/
structure Schema where
  addOk : Bool
  required : List String
  props : List (String × FieldC)
deriving Repr

/-- A single documented reason a bag failed validation, tagged with the
offending field. -/
inductive Violation where
  | unknownField (path : String)
  | missingField (path : String)
  | typeMismatch (path : String)
  | patternMismatch (path : String)
  | enumMismatch (path : String)
  | belowMinimum (path : String)
  | aboveMaximum (path : String)
  | tooFewItems (path : String)
  | duplicateItems (path : String)
deriving Repr, DecidableEq

/-- Draft-04 type keyword check for scalar types; Python booleans are not
numbers for jsonschema. -/
def typeMatches (t : LeafType) (v : JSON) : Bool :=
  match t, v with
  | .string, .str _ => true
  | .number, .num _ => true
  | _, _ => false

/-- Check all scalar keywords of one leaf constraint against a value.
Each draft-04 keyword applies only to values of its own type and ignores
the rest, except enum, which compares against any value. -/
def checkLeaf (path : String) (l : Leaf) (v : JSON) : List Violation :=
  (match l.ty with
   | some t => if typeMatches t v then [] else [.typeMismatch path]
   | none => []) ++
  (match l.pat, v with
   | some p, .str s => if p.check s then [] else [.patternMismatch path]
   | _, _ => []) ++
  (match l.enumVals with
   | some xs =>
      (match v with
       | .str s => if xs.contains s then [] else [.enumMismatch path]
       | _ => [.enumMismatch path])
   | none => []) ++
  (match l.minVal, v with
   | some m, .num n => if n < m then [.belowMinimum path] else []
   | _, _ => []) ++
  (match l.maxVal, v with
   | some m, .num n => if (if l.exMax then m ≤ n else m < n) then [.aboveMaximum path] else []
   | _, _ => [])

/-- Check an object-typed array item: type object, then unknown fields,
required fields and property constraints of the nested schema. -/
def checkObjItem (path : String) (o : ObjItemSchema) (v : JSON) : List Violation :=
  match v with
  | .obj fs =>
      (if o.addOk then []
       else (fs.filter fun p => !((o.props.map Prod.fst).contains p.1)).map
              fun p => .unknownField p.1) ++
      ((o.required.filter fun r => (lookupStr fs r).isNone).map fun r => .missingField r) ++
      (o.props.map fun p =>
        match lookupStr fs p.1 with
        | some w => checkLeaf p.1 p.2 w
        | none => []).flatten
  | _ => [.typeMismatch path]

/-- Check one array item against the items keyword. -/
def checkItem (path : String) (it : Items) (v : JSON) : List Violation :=
  match it with
  | .leaf l => checkLeaf path l v
  | .obj o => checkObjItem path o v

/-- Check one top-level property constraint against a present value.  An
array field carries type: array in the source, so a non-array value is a
type violation and the array keywords are not applied to it. -/
def checkFieldC (path : String) (c : FieldC) (v : JSON) : List Violation :=
  match c with
  | .leaf l => checkLeaf path l v
  | .array minItems unique items =>
      match v with
      | .arr xs =>
          (match minItems with
           | some m => if xs.length < m then [.tooFewItems path] else []
           | none => []) ++
          (xs.map (checkItem path items)).flatten ++
          (if unique && hasDup xs then [.duplicateItems path] else [])
      | _ => [.typeMismatch path]

/-- Violations of the additionalProperties keyword: every bag key outside
the schema property set, in bag order (only when the schema forbids
additional properties). -/
def unknownPart (s : Schema) (bag : List (String × JSON)) : List Violation :=
  if s.addOk then []
  else (bag.filter fun p => !((s.props.map Prod.fst).contains p.1)).map
         fun p => .unknownField p.1

/-- Violations of the required keyword: every required name absent from
the bag, in schema order. -/
def requiredPart (s : Schema) (bag : List (String × JSON)) : List Violation :=
  (s.required.filter fun r => (lookupStr bag r).isNone).map fun r => .missingField r

/-- Violations one property constraint contributes for a given bag: a
field present in both bag and schema is checked; an absent field
contributes nothing. -/
def checkProp (name : String) (c : FieldC) (bag : List (String × JSON)) : List Violation :=
  match lookupStr bag name with
  | some v => checkFieldC name c v
  | none => []

/-- Violations of the property constraints, in schema property order. -/
def propsPart (s : Schema) (bag : List (String × JSON)) : List Violation :=
  (s.props.map fun p => checkProp p.1 p.2 bag).flatten

/-- Full validation pass: all violations of one bag against one schema,
with no short-circuiting.  jsonschema.validate raises exactly when this
list is nonempty. -/
def validateBag (s : Schema) (bag : List (String × JSON)) : List Violation :=
  unknownPart s bag ++ requiredPart s bag ++ propsPart s bag

/-- Task status enum, appearing verbatim in the getTasksByProject,
getTasks and updateTask schemas and in updateTaskStatus. -/
def taskStatusValues : List String :=
  ["not_started", "working_on_it", "stuck", "sign_off", "done",
   "not_applicable", "not_scheduled", "scheduled"]

/-- Project status enum of the task-filter schemas. -/
def projectStatusValues : List String := ["on_hold", "on_time", "done", "late"]

/-- Task type enum of the task-filter schemas. -/
def taskTypeValues : List String := ["regular", "event", "grouped"]

/-- Responsibility enum of the task-filter schemas. -/
def responsibilityValues : List String := ["internal", "third_party", "customer"]

/-- Priority enum of the task-filter schemas. -/
def priorityValues : List String := ["low", "medium", "high"]

/-- The SCHEMA dictionary of createPendingProject, field for field. -/
def projectSchema : Schema :=
  ⟨false, ["name"],
   [("name", .leaf strLeaf),
    ("cashValue", .leaf (numMinLeaf 0)),
    ("domain", .leaf (strPatLeaf .domain)),
    ("externalId", .leaf strLeaf),
    ("projectManagerEmail", .leaf (strPatLeaf .email)),
    ("referringObjectId", .leaf strLeaf),
    ("startOn", .leaf (strPatLeaf .date)),
    ("endOn", .leaf (strPatLeaf .date)),
    ("templateSkus", .array (some 1) false (.leaf strLeaf)),
    ("templateExecution", .leaf (strEnumLeaf ["sequential", "parallel"])),
    ("customerUsers", .array (some 1) true
      (.obj ⟨false, [], [("firstName", strLeaf), ("lastName", strLeaf), ("email", strLeaf)]⟩)),
    ("customFields", .array (some 1) true
      (.obj ⟨false, ["customFieldId", "value"],
             [("customFieldId", strLeaf), ("value", strLeaf)]⟩))]⟩

/-- The SCHEMA dictionary of getTasksByProject, field for field: each array
field carries minItems 1. -/
def tasksByProjectSchema : Schema :=
  ⟨true, [],
   [("assigneeEmail", .array (some 1) false (.leaf (strPatLeaf .email))),
    ("status", .array (some 1) false (.leaf (enumLeaf taskStatusValues))),
    ("projectStatus", .array (some 1) false (.leaf (enumLeaf projectStatusValues))),
    ("type", .array (some 1) false (.leaf (enumLeaf taskTypeValues))),
    ("responsibility", .array (some 1) false (.leaf (enumLeaf responsibilityValues))),
    ("priority", .array (some 1) false (.leaf (strEnumLeaf priorityValues))),
    ("limit", .leaf limitLeaf),
    ("offset", .leaf (numMinLeaf 0))]⟩

/-- The SCHEMA dictionary of getTasks, field for field: identical to the
getTasksByProject one except that no array field carries minItems. -/
def tasksSchema : Schema :=
  ⟨true, [],
   [("assigneeEmail", .array none false (.leaf (strPatLeaf .email))),
    ("status", .array none false (.leaf (enumLeaf taskStatusValues))),
    ("projectStatus", .array none false (.leaf (enumLeaf projectStatusValues))),
    ("type", .array none false (.leaf (enumLeaf taskTypeValues))),
    ("responsibility", .array none false (.leaf (enumLeaf responsibilityValues))),
    ("priority", .array none false (.leaf (strEnumLeaf priorityValues))),
    ("limit", .leaf limitLeaf),
    ("offset", .leaf (numMinLeaf 0))]⟩

/-- The TASK_SCHEMA dictionary of updateTask (HEAD side of the merge
conflict: additionalProperties False, string-typed date fields). -/
def taskUpdateSchema : Schema :=
  ⟨false, [],
   [("name", .leaf strLeaf),
    ("description", .leaf strLeaf),
    ("assigneeEmail", .leaf (strPatLeaf .email)),
    ("startOn", .leaf (strPatLeaf .date)),
    ("dueOn", .leaf (strPatLeaf .date)),
    ("status", .leaf (enumLeaf taskStatusValues))]⟩

/-- HTTP methods used by the wrapper. -/
inductive Method where
  | GET
  | POST
  | PATCH
deriving Repr, DecidableEq

/-- What an operation hands to the requests library: method, full URL
(HOST plus endpoint with path parameters substituted), query parameters,
and optional JSON body. -/
structure RequestDescriptor where
  method : Method
  url : String
  query : List (String × JSON)
  body : Option JSON
deriving Repr

/-- Message of the ValueError raised by every schema-validated operation. -/
def invalidArgMsg : String := "Invalid argument(s)!"

/-- Operation createPendingProject: validate kwargs against the project
schema; on failure raise ValueError, on success POST kwargs verbatim as
the JSON body to HOST/projects. -/
def createPendingProject (host : String) (kwargs : List (String × JSON)) :
    Except String RequestDescriptor :=
  if validateBag projectSchema kwargs = [] then
    .ok ⟨.POST, host ++ "/projects", [], some (.obj kwargs)⟩
  else .error invalidArgMsg

/-- Operation getTasksByProject: validate kwargs against its schema; on
success GET HOST/projects/id/tasks with kwargs as the query parameters. -/
def getTasksByProject (host projectID : String) (kwargs : List (String × JSON)) :
    Except String RequestDescriptor :=
  if validateBag tasksByProjectSchema kwargs = [] then
    .ok ⟨.GET, host ++ "/projects/" ++ projectID ++ "/tasks", kwargs, none⟩
  else .error invalidArgMsg

/-- Operation getTasks: validate kwargs against its schema; on success GET
HOST/tasks with kwargs as the query parameters. -/
def getTasks (host : String) (kwargs : List (String × JSON)) :
    Except String RequestDescriptor :=
  if validateBag tasksSchema kwargs = [] then
    .ok ⟨.GET, host ++ "/tasks", kwargs, none⟩
  else .error invalidArgMsg

/-- Operation updateTask: validate kwargs against the task schema; on
success PATCH HOST/tasks/id with kwargs verbatim as the JSON body. -/
def updateTask (host taskID : String) (kwargs : List (String × JSON)) :
    Except String RequestDescriptor :=
  if validateBag taskUpdateSchema kwargs = [] then
    .ok ⟨.PATCH, host ++ "/tasks/" ++ taskID, [], some (.obj kwargs)⟩
  else .error invalidArgMsg

/-- Append one optional query entry the way getProjects does: the Python
presence test is plain truthiness, so None and the empty string are both
skipped. -/
def addIfTruthy (q : List (String × JSON)) (k : String) (v : Option String) :
    List (String × JSON) :=
  match v with
  | some s => if s = "" then q else q ++ [(k, JSON.str s)]
  | none => q

/-- Operation getProjects: no validation of any kind in the source; the
query dictionary starts with limit and offset (defaults 10 and 0) and the
three optional filters are appended only when truthy. -/
def getProjects (host : String) (limit offset : Int)
    (customerName projectName projectManagerEmail : Option String) :
    RequestDescriptor :=
  ⟨.GET, host ++ "/projects",
   addIfTruthy (addIfTruthy (addIfTruthy
     [("limit", JSON.num limit), ("offset", JSON.num offset)]
     "customerName" customerName) "projectName" projectName)
     "projectManagerEmail" projectManagerEmail,
   none⟩

/-- Python values as far as the note operations see them: strings,
booleans, flat string-keyed objects, and the GuideCX instance that a bound
method call prepends to the positional arguments. -/
inductive PyVal where
  | str (s : String)
  | pybool (b : Bool)
  | obj (fields : List (String × PyVal))
  | inst
deriving Repr

/-- The dictionary literal built in the body of Note. -/
def noteBodyDict (text userEmail internalOnly : PyVal) : PyVal :=
  .obj [("text", text), ("userEmail", userEmail), ("internalOnly", internalOnly)]

/-- Call of the function Note(text, userEmail, internalOnly=False) with a
positional argument list, CPython arity semantics included: two or three
positional arguments bind the parameters (internalOnly defaulting to
False), any other count raises TypeError. -/
def noteCall : List PyVal → Except String PyVal
  | [text, userEmail] => .ok (noteBodyDict text userEmail (.pybool false))
  | [text, userEmail, internalOnly] => .ok (noteBodyDict text userEmail internalOnly)
  | args => .error ("Note() takes from 2 to 3 positional arguments but " ++
      toString args.length ++ " were given")

/-- The TypeError message produced when the instance is prepended to the
three explicit arguments. -/
def noteArityError : String :=
  "Note() takes from 2 to 3 positional arguments but 4 were given"

/-- Request shape of the note-creation endpoints. -/
structure NoteRequest where
  method : Method
  url : String
  body : PyVal
deriving Repr

/-- Operation createNoteToProject: builds the URL, then evaluates
self.Note(text, userEmail, internalOnly).  Note is declared without a
self parameter, so the bound call passes four positional arguments
(instance, text, userEmail, internalOnly) to a function accepting at most
three. -/
def createNoteToProject (host projectID text userEmail : String)
    (internalOnly : Bool) : Except String NoteRequest :=
  match noteCall [.inst, .str text, .str userEmail, .pybool internalOnly] with
  | .ok body => .ok ⟨.POST, host ++ "/projects/" ++ projectID ++ "/notes", body⟩
  | .error e => .error e

/-- Operation createNoteToTask: same bound call of Note, task endpoint. -/
def createNoteToTask (host taskID text userEmail : String)
    (internalOnly : Bool) : Except String NoteRequest :=
  match noteCall [.inst, .str text, .str userEmail, .pybool internalOnly] with
  | .ok body => .ok ⟨.POST, host ++ "/tasks/" ++ taskID ++ "/notes", body⟩
  | .error e => .error e


/-- Join parts back with the separator between consecutive parts. -/
def joinParts (sep : Char) : List (List Char) → List Char
  | [] => []
  | [p] => p
  | p :: rest => p ++ sep :: joinParts sep rest

/-- Numeric value of a digit string, most significant digit first. -/
def digitsVal (cs : List Char) : Nat :=
  cs.foldl (fun n c => 10 * n + (c.toNat - 48)) 0

/-- All characters are ASCII digits. -/
def allDigits (cs : List Char) : Prop := ∀ c ∈ cs, 48 ≤ c.toNat ∧ c.toNat ≤ 57

instance (cs : List Char) : Decidable (allDigits cs) := by
  unfold allDigits
  infer_instance

/-- The whole-list shape the date regex body accepts, stated in plain
arithmetic: four digit characters, a hyphen, a month of one or two digits
reading 1 to 12, a hyphen, and a day of one or two digits reading 1 to 31
(no calendar cross-check between the parts). -/
def CoreDateShape (cs : List Char) : Prop :=
  ∃ y m d, cs = y ++ '-' :: (m ++ '-' :: d) ∧
    y.length = 4 ∧ allDigits y ∧
    allDigits m ∧ (m.length = 1 ∨ m.length = 2) ∧
    1 ≤ digitsVal m ∧ digitsVal m ≤ 12 ∧
    allDigits d ∧ (d.length = 1 ∨ d.length = 2) ∧
    1 ≤ digitsVal d ∧ digitsVal d ≤ 31

/-- The acceptance set the amended claim C8 describes for a date-bearing
string: the regex-body shape on the whole string, or on the string minus
one trailing newline (which Python's dollar anchor also accepts). -/
def AmendedDateShape (s : String) : Prop :=
  CoreDateShape s.toList ∨ ∃ t, s.toList = t ++ ['\n'] ∧ CoreDateShape t

/-- The date shape claim C8 asserts for date fields: a whole-string match
of a four-digit year, a one-or-two digit month and a one-or-two digit day
separated by hyphens, with no range bound on month or day. -/
def ClaimedDateShape (s : String) : Prop :=
  ∃ y m d, s.toList = y ++ '-' :: (m ++ '-' :: d) ∧
    y.length = 4 ∧ allDigits y ∧
    allDigits m ∧ (m.length = 1 ∨ m.length = 2) ∧
    allDigits d ∧ (d.length = 1 ∨ d.length = 2)

/-! Helper lemmas about lookups and membership in validation results. -/

theorem splitOnChar_ne_nil (sep : Char) (cs : List Char) : splitOnChar sep cs ≠ [] := by
  induction cs with
  | nil => simp [splitOnChar]
  | cons c rest ih =>
      simp only [splitOnChar]
      split
      · simp
      · split <;> simp

theorem joinParts_cons_cons (sep c : Char) (g : List Char) (gs : List (List Char)) :
    joinParts sep ((c :: g) :: gs) = c :: joinParts sep (g :: gs) := by
  cases gs <;> simp [joinParts]

theorem joinParts_splitOnChar (sep : Char) (cs : List Char) :
    joinParts sep (splitOnChar sep cs) = cs := by
  induction cs with
  | nil => rfl
  | cons c rest ih =>
      by_cases h : c = sep
      · subst h
        rw [splitOnChar]
        simp only [if_pos rfl]
        rcases hs : splitOnChar c rest with _ | ⟨g, gs⟩
        · exact absurd hs (splitOnChar_ne_nil c rest)
        · rw [hs] at ih
          simp [joinParts, ih]
      · rw [splitOnChar]
        simp only [if_neg h]
        rcases hs : splitOnChar sep rest with _ | ⟨g, gs⟩
        · exact absurd hs (splitOnChar_ne_nil sep rest)
        · rw [hs] at ih
          rw [joinParts_cons_cons]
          rw [ih]

theorem splitOnChar_parts_sep_free (sep : Char) (cs : List Char) :
    ∀ part ∈ splitOnChar sep cs, sep ∉ part := by
  induction cs with
  | nil => simp [splitOnChar]
  | cons c rest ih =>
      by_cases h : c = sep
      · subst h
        rw [splitOnChar]
        simp only [if_pos rfl]
        intro part hp
        rcases hp with _ | hp
        · simp
        · exact ih _ (by assumption)
      · rw [splitOnChar]
        simp only [if_neg h]
        rcases hs : splitOnChar sep rest with _ | ⟨g, gs⟩
        · exact absurd hs (splitOnChar_ne_nil sep rest)
        · intro part hp
          rcases hp with _ | hp
          · have hg : sep ∉ g := ih g (by rw [hs]; exact List.mem_cons_self g gs)
            intro hmem
            rcases hmem with _ | hmem
            · exact h rfl
            · exact hg (by assumption)
          · exact ih _ (by rw [hs]; exact List.mem_cons_of_mem g (by assumption))

theorem splitOnChar_sep_free {sep : Char} {cs : List Char} (h : sep ∉ cs) :
    splitOnChar sep cs = [cs] := by
  induction cs with
  | nil => rfl
  | cons c rest ih =>
      simp only [List.mem_cons, not_or] at h
      rw [splitOnChar, if_neg (fun hc => h.1 hc.symm), ih h.2]

theorem splitOnChar_append_sep {sep : Char} {pre : List Char} (h : sep ∉ pre)
    (rest : List Char) :
    splitOnChar sep (pre ++ sep :: rest) = pre :: splitOnChar sep rest := by
  induction pre with
  | nil => simp [splitOnChar]
  | cons c pre' ih =>
      simp only [List.mem_cons, not_or] at h
      rw [List.cons_append, splitOnChar, if_neg (fun hc => h.1 hc.symm),
          ih h.2]

theorem splitOnChar_eq_three_iff (sep : Char) (cs y m d : List Char)
    (hy : sep ∉ y) (hm : sep ∉ m) (hd : sep ∉ d) :
    splitOnChar sep cs = [y, m, d] ↔ cs = y ++ sep :: (m ++ sep :: d) := by
  constructor
  · intro h
    have := joinParts_splitOnChar sep cs
    rw [h] at this
    simp only [joinParts] at this
    exact this.symm
  · intro h
    subst h
    rw [splitOnChar_append_sep hy, splitOnChar_append_sep hm,
        splitOnChar_sep_free hd]

theorem yearOK_iff (y : List Char) :
    yearOK y = true ↔ (y.length = 4 ∧ allDigits y) := by
  rcases y with _ | ⟨a, _ | ⟨b, _ | ⟨c, _ | ⟨d, _ | ⟨e, t⟩⟩⟩⟩⟩ <;>
    simp [yearOK, allDigits, digitChar] <;> omega

theorem monthOK_iff (m : List Char) :
    monthOK m = true ↔
      (allDigits m ∧ (m.length = 1 ∨ m.length = 2) ∧
       1 ≤ digitsVal m ∧ digitsVal m ≤ 12) := by
  rcases m with _ | ⟨a, _ | ⟨b, _ | ⟨c, t⟩⟩⟩ <;>
    simp [monthOK, allDigits, digitsVal, List.foldl] <;> omega

theorem dayOK_iff (d : List Char) :
    dayOK d = true ↔
      (allDigits d ∧ (d.length = 1 ∨ d.length = 2) ∧
       1 ≤ digitsVal d ∧ digitsVal d ≤ 31) := by
  rcases d with _ | ⟨a, _ | ⟨b, _ | ⟨c, t⟩⟩⟩ <;>
    simp [dayOK, allDigits, digitsVal, List.foldl] <;> omega

theorem not_hyphen_of_allDigits {cs : List Char} (h : allDigits cs) : '-' ∉ cs := by
  intro hm
  have h2 := h _ hm
  have h3 : ('-').toNat = 45 := rfl
  omega

theorem dateCore_iff (cs : List Char) : dateCore cs = true ↔ CoreDateShape cs := by
  constructor
  · intro h
    unfold dateCore at h
    rcases hs : splitOnChar '-' cs with _ | ⟨y, _ | ⟨m, _ | ⟨d, _ | ⟨e, t⟩⟩⟩⟩ <;>
      rw [hs] at h
    · exact absurd h (by simp)
    · exact absurd h (by simp)
    · exact absurd h (by simp)
    · simp only [Bool.and_eq_true] at h
      obtain ⟨⟨hy, hm⟩, hd⟩ := h
      have hfy : '-' ∉ y := splitOnChar_parts_sep_free '-' cs y (by rw [hs]; simp)
      have hfm : '-' ∉ m := splitOnChar_parts_sep_free '-' cs m (by rw [hs]; simp)
      have hfd : '-' ∉ d := splitOnChar_parts_sep_free '-' cs d (by rw [hs]; simp)
      have hcs := (splitOnChar_eq_three_iff '-' cs y m d hfy hfm hfd).mp hs
      obtain ⟨hyl, hyd⟩ := (yearOK_iff y).mp hy
      obtain ⟨hmd, hml, hm1, hm2⟩ := (monthOK_iff m).mp hm
      obtain ⟨hdd, hdl, hd1, hd2⟩ := (dayOK_iff d).mp hd
      exact ⟨y, m, d, hcs, hyl, hyd, hmd, hml, hm1, hm2, hdd, hdl, hd1, hd2⟩
    · exact absurd h (by simp)
  · rintro ⟨y, m, d, hcs, hyl, hyd, hmd, hml, hm1, hm2, hdd, hdl, hd1, hd2⟩
    have hs := (splitOnChar_eq_three_iff '-' cs y m d
      (not_hyphen_of_allDigits hyd) (not_hyphen_of_allDigits hmd)
      (not_hyphen_of_allDigits hdd)).mpr hcs
    unfold dateCore
    rw [hs]
    simp only [Bool.and_eq_true]
    exact ⟨⟨(yearOK_iff y).mpr ⟨hyl, hyd⟩, (monthOK_iff m).mpr ⟨hmd, hml, hm1, hm2⟩⟩,
           (dayOK_iff d).mpr ⟨hdd, hdl, hd1, hd2⟩⟩

theorem dateCheck_iff (s : String) : Pat.date.check s = true ↔ AmendedDateShape s := by
  unfold Pat.check pyAnchored AmendedDateShape
  simp only [Bool.or_eq_true, Bool.and_eq_true, dateCore_iff, beq_iff_eq]
  constructor
  · rintro (h | ⟨hl, hcore⟩)
    · exact Or.inl h
    · exact Or.inr ⟨s.toList.dropLast,
        (List.dropLast_append_getLast? '\n' (Option.mem_def.mpr hl)).symm, hcore⟩
  · rintro (h | ⟨t, ht, hcore⟩)
    · exact Or.inl h
    · refine Or.inr ⟨?_, ?_⟩
      · rw [ht, List.getLast?_concat]
      · rw [ht, List.dropLast_concat]
        exact hcore

theorem lookupStr_append (l1 l2 : List (String × JSON)) (k : String) :
    lookupStr (l1 ++ l2) k = (lookupStr l1 k).or (lookupStr l2 k) := by
  induction l1 with
  | nil => simp [lookupStr]
  | cons p rest ih => by_cases h : p.1 = k <;> simp [lookupStr, h, ih]

theorem violation_mem_of_prop {s : Schema} {bag : List (String × JSON)}
    {name : String} {c : FieldC} {v : JSON} {w : Violation}
    (hp : (name, c) ∈ s.props) (hl : lookupStr bag name = some v)
    (hw : w ∈ checkFieldC name c v) : w ∈ validateBag s bag := by
  unfold validateBag propsPart
  refine List.mem_append.mpr (Or.inr ?_)
  refine List.mem_flatten.mpr ⟨checkFieldC name c v, ?_, hw⟩
  refine List.mem_map.mpr ⟨(name, c), hp, ?_⟩
  simp [checkProp, hl]

theorem violation_mem_of_unknown {s : Schema} {bag : List (String × JSON)}
    {k : String} {v : JSON}
    (ha : s.addOk = false) (hm : (k, v) ∈ bag)
    (hk : ((s.props.map Prod.fst).contains k) = false) :
    Violation.unknownField k ∈ validateBag s bag := by
  unfold validateBag unknownPart
  refine List.mem_append.mpr (Or.inl (List.mem_append.mpr (Or.inl ?_)))
  rw [ha]
  simp only [Bool.false_eq_true, if_false]
  refine List.mem_map.mpr ⟨(k, v), List.mem_filter.mpr ⟨hm, ?_⟩, rfl⟩
  simp only [hk, Bool.not_false]


/-! Claim theorems. -/

/-- C1 (code bug): the claim describes the intended note body
(text, userEmail, internalOnly with internalOnly defaulting to false, same
payload for the project and the task endpoint), but the source declares
Note without a self parameter while calling it as a bound method, so every
call of createNoteToProject and createNoteToTask passes four positional
arguments to a function accepting at most three and raises TypeError: no
body is ever built and no request reaches the transport. -/
theorem note_operations_always_raise_type_error
    (host projectID taskID text userEmail : String) (internalOnly : Bool) :
    createNoteToProject host projectID text userEmail internalOnly =
      .error noteArityError ∧
    createNoteToTask host taskID text userEmail internalOnly =
      .error noteArityError := by
  constructor <;>
  · simp [createNoteToProject, createNoteToTask, noteCall, noteArityError]
    decide

/-- C5: for every schema-validated operation (createPendingProject,
getTasksByProject, getTasks, updateTask), a bag failing validation makes
the operation raise ValueError with the message Invalid argument(s)! and
no request descriptor is produced, while a request descriptor is produced
only for bags whose validation pass collected zero violations. -/
theorem validation_failure_blocks_transport (host projectID taskID : String)
    (bag : List (String × JSON)) :
    (validateBag projectSchema bag ≠ [] →
       createPendingProject host bag = .error invalidArgMsg) ∧
    (validateBag tasksByProjectSchema bag ≠ [] →
       getTasksByProject host projectID bag = .error invalidArgMsg) ∧
    (validateBag tasksSchema bag ≠ [] →
       getTasks host bag = .error invalidArgMsg) ∧
    (validateBag taskUpdateSchema bag ≠ [] →
       updateTask host taskID bag = .error invalidArgMsg) ∧
    (∀ r, createPendingProject host bag = .ok r → validateBag projectSchema bag = []) ∧
    (∀ r, getTasksByProject host projectID bag = .ok r →
       validateBag tasksByProjectSchema bag = []) ∧
    (∀ r, getTasks host bag = .ok r → validateBag tasksSchema bag = []) ∧
    (∀ r, updateTask host taskID bag = .ok r → validateBag taskUpdateSchema bag = []) := by
  refine ⟨fun h => by simp only [createPendingProject, if_neg h],
          fun h => by simp only [getTasksByProject, if_neg h],
          fun h => by simp only [getTasks, if_neg h],
          fun h => by simp only [updateTask, if_neg h],
          fun r hr => ?_, fun r hr => ?_, fun r hr => ?_, fun r hr => ?_⟩
  · by_contra hne
    simp only [createPendingProject, if_neg hne] at hr
    injection hr
  · by_contra hne
    simp only [getTasksByProject, if_neg hne] at hr
    injection hr
  · by_contra hne
    simp only [getTasks, if_neg hne] at hr
    injection hr
  · by_contra hne
    simp only [updateTask, if_neg hne] at hr
    injection hr

/-- Witness for C5 at concrete invalid bags for each operation. -/
theorem validation_failure_blocks_transport_witness :
    createPendingProject "h" [] = .error invalidArgMsg ∧
    getTasksByProject "h" "p1" [("limit", JSON.num 50)] = .error invalidArgMsg ∧
    getTasks "h" [("limit", JSON.num 50)] = .error invalidArgMsg ∧
    updateTask "h" "t1" [("status", JSON.str "bogus")] = .error invalidArgMsg :=
  ⟨(validation_failure_blocks_transport "h" "p1" "t1" []).1 (by decide),
   (validation_failure_blocks_transport "h" "p1" "t1" [("limit", JSON.num 50)]).2.1
     (by decide),
   (validation_failure_blocks_transport "h" "p1" "t1" [("limit", JSON.num 50)]).2.2.1
     (by decide),
   (validation_failure_blocks_transport "h" "p1" "t1"
     [("status", JSON.str "bogus")]).2.2.2.1 (by decide)⟩

/-- C4: creating a project with the empty bag collects exactly one
violation, the missing required field name, and the operation rejects it;
a bag holding only name mapped to the string Acme Rollout validates and
the built request posts that bag verbatim as the JSON body (in general
every validated bag is sent unchanged as the body). -/
theorem createPendingProject_name_examples (host : String) :
    validateBag projectSchema [] = [.missingField "name"] ∧
    createPendingProject host [] = .error invalidArgMsg ∧
    validateBag projectSchema [("name", JSON.str "Acme Rollout")] = [] ∧
    createPendingProject host [("name", JSON.str "Acme Rollout")] =
      .ok ⟨.POST, host ++ "/projects", [],
           some (.obj [("name", JSON.str "Acme Rollout")])⟩ ∧
    (∀ bag, validateBag projectSchema bag = [] →
       createPendingProject host bag =
         .ok ⟨.POST, host ++ "/projects", [], some (.obj bag)⟩) := by
  refine ⟨by decide, ?_, by decide, ?_, fun bag h => ?_⟩
  · rw [createPendingProject, if_neg (by decide)]
  · rw [createPendingProject, if_pos (by decide)]
  · rw [createPendingProject, if_pos h]

/-- Witness for C4: the universally quantified verbatim-body conjunct
applied at a concrete valid bag. -/
theorem createPendingProject_name_examples_witness :
    createPendingProject "h" [("name", JSON.str "x"), ("cashValue", JSON.num 3)] =
      .ok ⟨.POST, "h/projects", [],
           some (.obj [("name", JSON.str "x"), ("cashValue", JSON.num 3)])⟩ :=
  (createPendingProject_name_examples "h").2.2.2.2
    [("name", JSON.str "x"), ("cashValue", JSON.num 3)] (by decide)

/-- C10: in getProjects each optional filter (customerName, projectName,
projectManagerEmail) is omitted from the query exactly when it is None or
the empty string (Python truthiness), while limit and offset always appear
with the passed values, the defaults 10 and 0 included. -/
theorem getProjects_truthiness_elision (host : String) (limit offset : Int)
    (cn pn pm : Option String) :
    ("customerName" ∉ (getProjects host limit offset cn pn pm).query.map Prod.fst ↔
       cn = none ∨ cn = some "") ∧
    ("projectName" ∉ (getProjects host limit offset cn pn pm).query.map Prod.fst ↔
       pn = none ∨ pn = some "") ∧
    ("projectManagerEmail" ∉ (getProjects host limit offset cn pn pm).query.map Prod.fst ↔
       pm = none ∨ pm = some "") ∧
    lookupStr (getProjects host limit offset cn pn pm).query "limit" =
      some (JSON.num limit) ∧
    lookupStr (getProjects host limit offset cn pn pm).query "offset" =
      some (JSON.num offset) ∧
    (getProjects host 10 0 none none none).query =
      [("limit", JSON.num 10), ("offset", JSON.num 0)] := by
  rcases cn with _ | s1 <;> rcases pn with _ | s2 <;> rcases pm with _ | s3 <;>
    simp only [getProjects, addIfTruthy] <;>
    (try split_ifs) <;>
    simp_all [lookupStr]

/-- Witness for C10: a present filter set to the empty string is elided
exactly like None. -/
theorem getProjects_truthiness_elision_witness :
    "customerName" ∉
      (getProjects "h" 10 0 (some "") (some "Acme") none).query.map Prod.fst :=
  (getProjects_truthiness_elision "h" 10 0 (some "") (some "Acme") none).1.mpr
    (Or.inr rfl)

/-- C7 counterexample: a getProjects call with limit 50 is not rejected;
the source performs no validation at all here and the built request hands
limit 50 to the transport. -/
theorem getProjects_limit_50_reaches_transport :
    getProjects "h" 50 0 none none none =
      ⟨.GET, "h/projects", [("limit", JSON.num 50), ("offset", JSON.num 0)], none⟩ :=
  rfl

/-- C7 amended: getProjects validates nothing against any schema; for every
argument tuple it unconditionally builds a GET request on HOST/projects
whose query carries the limit value unchanged (50 and larger included). -/
theorem getProjects_has_no_validation (host : String) (limit offset : Int)
    (cn pn pm : Option String) :
    lookupStr (getProjects host limit offset cn pn pm).query "limit" =
      some (JSON.num limit) ∧
    (getProjects host limit offset cn pn pm).method = .GET ∧
    (getProjects host limit offset cn pn pm).url = host ++ "/projects" := by
  rcases cn with _ | s1 <;> rcases pn with _ | s2 <;> rcases pm with _ | s3 <;>
    simp only [getProjects, addIfTruthy] <;>
    (try split_ifs) <;>
    simp_all [lookupStr]

/-- C2: for both task-filter operations a bag whose limit entry is the
number 50 always fails validation (the schema maximum 50 is exclusive) and
a bag with a negative limit likewise fails; limit 49 adds no violation,
so a bag with limit 49 validates exactly like the same bag without a
limit entry, and in particular the bag holding only limit 49 is valid
while the bag holding only limit 50 is not. -/
theorem taskFilter_limit_bounds (bag : List (String × JSON)) (n : Int) :
    (lookupStr bag "limit" = some (JSON.num 50) →
       validateBag tasksSchema bag ≠ [] ∧
       validateBag tasksByProjectSchema bag ≠ []) ∧
    (n < 0 → lookupStr bag "limit" = some (JSON.num n) →
       validateBag tasksSchema bag ≠ [] ∧
       validateBag tasksByProjectSchema bag ≠ []) ∧
    (lookupStr bag "limit" = none →
       validateBag tasksSchema (("limit", JSON.num 49) :: bag) =
         validateBag tasksSchema bag ∧
       validateBag tasksByProjectSchema (("limit", JSON.num 49) :: bag) =
         validateBag tasksByProjectSchema bag) ∧
    validateBag tasksSchema [("limit", JSON.num 49)] = [] ∧
    validateBag tasksByProjectSchema [("limit", JSON.num 49)] = [] ∧
    validateBag tasksSchema [("limit", JSON.num 50)] ≠ [] ∧
    validateBag tasksByProjectSchema [("limit", JSON.num 50)] ≠ [] := by
  have hw50 : Violation.aboveMaximum "limit" ∈
      checkFieldC "limit" (FieldC.leaf limitLeaf) (JSON.num 50) := by decide
  have hwneg : ∀ m : Int, m < 0 → Violation.belowMinimum "limit" ∈
      checkFieldC "limit" (FieldC.leaf limitLeaf) (JSON.num m) := by
    intro m hm
    simp [checkFieldC, checkLeaf, limitLeaf, typeMatches, hm]
  have hpA : ("limit", FieldC.leaf limitLeaf) ∈ tasksSchema.props := by
    simp [tasksSchema]
  have hpB : ("limit", FieldC.leaf limitLeaf) ∈ tasksByProjectSchema.props := by
    simp [tasksByProjectSchema]
  refine ⟨fun hl => ⟨?_, ?_⟩, fun hn hl => ⟨?_, ?_⟩, fun hnone => ⟨?_, ?_⟩,
          by decide, by decide, by decide, by decide⟩
  · exact List.ne_nil_of_mem (violation_mem_of_prop hpA hl hw50)
  · exact List.ne_nil_of_mem (violation_mem_of_prop hpB hl hw50)
  · exact List.ne_nil_of_mem (violation_mem_of_prop hpA hl (hwneg n hn))
  · exact List.ne_nil_of_mem (violation_mem_of_prop hpB hl (hwneg n hn))
  · simp [validateBag, unknownPart, requiredPart, propsPart, tasksSchema,
          checkProp, lookupStr, hnone, checkFieldC, checkLeaf, limitLeaf, typeMatches]
  · simp [validateBag, unknownPart, requiredPart, propsPart, tasksByProjectSchema,
          checkProp, lookupStr, hnone, checkFieldC, checkLeaf, limitLeaf, typeMatches]

/-- Witness for C2 at concrete bags. -/
theorem taskFilter_limit_bounds_witness :
    validateBag tasksSchema [("limit", JSON.num 50)] ≠ [] ∧
    validateBag tasksByProjectSchema [("limit", JSON.num (-1))] ≠ [] ∧
    validateBag tasksSchema (("limit", JSON.num 49) :: []) = validateBag tasksSchema [] :=
  ⟨((taskFilter_limit_bounds [("limit", JSON.num 50)] 0).1 (by simp [lookupStr])).1,
   ((taskFilter_limit_bounds [("limit", JSON.num (-1))] (-1)).2.1 (by decide)
      (by simp [lookupStr])).2,
   ((taskFilter_limit_bounds [] 0).2.2.1 rfl).1⟩

/-- C6: adding a key outside the schema field set to an updateTask bag
makes validation fail and report an UnknownField violation for that key,
while adding the same unknown key to a getTasks or getTasksByProject bag
leaves the collected violations unchanged, so a passing filter bag still
passes (the filter schemas allow additional properties). -/
theorem unknown_field_asymmetry (bag : List (String × JSON)) (k : String) (v : JSON) :
    (k ∉ taskUpdateSchema.props.map Prod.fst →
       Violation.unknownField k ∈ validateBag taskUpdateSchema (bag ++ [(k, v)]) ∧
       validateBag taskUpdateSchema (bag ++ [(k, v)]) ≠ []) ∧
    (k ∉ tasksSchema.props.map Prod.fst →
       validateBag tasksSchema (bag ++ [(k, v)]) = validateBag tasksSchema bag) ∧
    (k ∉ tasksByProjectSchema.props.map Prod.fst →
       validateBag tasksByProjectSchema (bag ++ [(k, v)]) =
         validateBag tasksByProjectSchema bag) := by
  refine ⟨fun hk => ?_, fun hk => ?_, fun hk => ?_⟩
  · have hc : ((taskUpdateSchema.props.map Prod.fst).contains k) = false := by
      simpa using hk
    have hmv : (k, v) ∈ bag ++ [(k, v)] :=
      List.mem_append_right bag (List.mem_singleton.mpr rfl)
    have hmem := violation_mem_of_unknown rfl hmv hc
    exact ⟨hmem, List.ne_nil_of_mem hmem⟩
  · simp only [tasksSchema, List.map] at hk
    simp only [List.mem_cons, List.not_mem_nil, not_or] at hk
    obtain ⟨h1, h2, h3, h4, h5, h6, h7, h8, -⟩ := hk
    simp [validateBag, unknownPart, requiredPart, propsPart, tasksSchema, checkProp,
          lookupStr_append, lookupStr, h1, h2, h3, h4, h5, h6, h7, h8]
  · simp only [tasksByProjectSchema, List.map] at hk
    simp only [List.mem_cons, List.not_mem_nil, not_or] at hk
    obtain ⟨h1, h2, h3, h4, h5, h6, h7, h8, -⟩ := hk
    simp [validateBag, unknownPart, requiredPart, propsPart, tasksByProjectSchema, checkProp,
          lookupStr_append, lookupStr, h1, h2, h3, h4, h5, h6, h7, h8]

/-- Witness for C6 with the unknown key foo. -/
theorem unknown_field_asymmetry_witness :
    Violation.unknownField "foo" ∈ validateBag taskUpdateSchema [("foo", JSON.null)] ∧
    validateBag tasksSchema [("foo", JSON.null)] = validateBag tasksSchema [] :=
  ⟨((unknown_field_asymmetry [] "foo" JSON.null).1 (by decide)).1,
   (unknown_field_asymmetry [] "foo" JSON.null).2.1 (by decide)⟩

/-- C3 counterexample: two bags collecting different violation lists
produce the identical Invalid outcome (the constant ValueError message),
so the result handed to the caller does not carry the violation list the
claim promises. -/
theorem invalid_result_carries_no_violations :
    updateTask "h" "t1" [("status", JSON.str "bogus")] =
      updateTask "h" "t1"
        [("status", JSON.str "bogus"), ("startOn", JSON.str "nodate")] ∧
    validateBag taskUpdateSchema [("status", JSON.str "bogus")] ≠
      validateBag taskUpdateSchema
        [("status", JSON.str "bogus"), ("startOn", JSON.str "nodate")] := by
  constructor
  · rw [updateTask, updateTask, if_neg (by decide), if_neg (by decide)]
  · decide

/-- C3 amended: validation succeeds exactly when the single full pass
collects zero violations, and the pass is complete (a bag with two
independent problems collects both violations, as the sample shows); on
failure, however, the operation raises only the generic ValueError
Invalid argument(s)!, which does not carry the violation list. -/
theorem validation_zero_violations (host taskID : String) (bag : List (String × JSON)) :
    ((∃ r, updateTask host taskID bag = .ok r) ↔
       validateBag taskUpdateSchema bag = []) ∧
    (validateBag taskUpdateSchema bag ≠ [] →
       updateTask host taskID bag = .error invalidArgMsg) ∧
    ((∃ r, createPendingProject host bag = .ok r) ↔
       validateBag projectSchema bag = []) ∧
    (validateBag projectSchema bag ≠ [] →
       createPendingProject host bag = .error invalidArgMsg) ∧
    validateBag taskUpdateSchema
      [("status", JSON.str "bogus"), ("assigneeEmail", JSON.str "noatsign")] =
      [.patternMismatch "assigneeEmail", .enumMismatch "status"] := by
  refine ⟨⟨?_, ?_⟩, fun h => ?_, ⟨?_, ?_⟩, fun h => ?_, by decide⟩
  · rintro ⟨r, hr⟩
    by_contra hne
    simp only [updateTask, if_neg hne] at hr
    injection hr
  · intro h
    exact ⟨_, by rw [updateTask, if_pos h]⟩
  · simp only [updateTask, if_neg h]
  · rintro ⟨r, hr⟩
    by_contra hne
    simp only [createPendingProject, if_neg hne] at hr
    injection hr
  · intro h
    exact ⟨_, by rw [createPendingProject, if_pos h]⟩
  · simp only [createPendingProject, if_neg h]

/-- Witness for C3 at a failing and a passing updateTask bag. -/
theorem validation_zero_violations_witness :
    updateTask "h" "t1" [("name", JSON.num 7)] = .error invalidArgMsg ∧
    (∃ r, updateTask "h" "t1" [("name", JSON.str "n")] = .ok r) :=
  ⟨(validation_zero_violations "h" "t1" [("name", JSON.num 7)]).2.1 (by decide),
   ((validation_zero_violations "h" "t1" [("name", JSON.str "n")]).1).mpr (by decide)⟩

theorem checkProp_minItems_one (name : String) (unique : Bool) (it : Items)
    (bag : List (String × JSON)) :
    checkProp name (.array (some 1) unique it) bag = [] ↔
      (checkProp name (.array none unique it) bag = [] ∧
       lookupStr bag name ≠ some (JSON.arr [])) := by
  unfold checkProp
  cases h : lookupStr bag name with
  | none => simp
  | some v =>
      cases v with
      | arr xs =>
          cases xs with
          | nil => simp [checkFieldC, hasDup]
          | cons x rest => simp [checkFieldC]
      | str s => simp [checkFieldC]
      | num n => simp [checkFieldC]
      | bool b => simp [checkFieldC]
      | null => simp [checkFieldC]
      | obj fs => simp [checkFieldC]

/-- C9 amended: a bag validates for getTasksByProject exactly when it
validates for getTasks and binds no array field to an empty array, so the
two validators agree on every bag without an empty array field, every bag
with one is rejected by the list-by-project variant, and on the bags where
the validators differ the list-all variant accepts while the
list-by-project variant rejects. -/
theorem tasksByProject_vs_tasks (bag : List (String × JSON)) :
    validateBag tasksByProjectSchema bag = [] ↔
      (validateBag tasksSchema bag = [] ∧
       ∀ f ∈ (["assigneeEmail", "status", "projectStatus", "type",
               "responsibility", "priority"] : List String),
         lookupStr bag f ≠ some (JSON.arr [])) := by
  simp only [validateBag, unknownPart, requiredPart, propsPart, tasksByProjectSchema,
    tasksSchema, List.map_cons, List.map_nil, List.flatten_cons, List.flatten_nil,
    List.filter_nil, List.append_nil, List.nil_append, if_true,
    List.append_eq_nil, checkProp_minItems_one, List.forall_mem_cons,
    List.not_mem_nil, false_implies] 
  tauto

/-- C9 counterexample: this bag binds the array field status to an empty
array, yet the list-all validator getTasks also rejects it (its limit
entry breaks the exclusive bound), refuting the claim that the list-all
variant accepts every bag containing an empty array field. -/
theorem tasks_rejects_a_bag_with_empty_array :
    lookupStr [("status", JSON.arr []), ("limit", JSON.num 50)] "status" =
      some (JSON.arr []) ∧
    validateBag tasksSchema [("status", JSON.arr []), ("limit", JSON.num 50)] ≠ [] := by
  constructor
  · simp [lookupStr]
  · decide

/-- Witness for C9: the equivalence applied to a concrete valid bag. -/
theorem tasksByProject_vs_tasks_witness :
    validateBag tasksSchema [("limit", JSON.num 49)] = [] ∧
    ∀ f ∈ (["assigneeEmail", "status", "projectStatus", "type",
            "responsibility", "priority"] : List String),
      lookupStr [("limit", JSON.num 49)] f ≠ some (JSON.arr []) :=
  (tasksByProject_vs_tasks [("limit", JSON.num 49)]).mp (by decide)

/-- C8 counterexample: the string 2021-13-5 has the claimed whole-string
shape (four-digit year, 1-2 digit month, 1-2 digit day, hyphen-separated),
yet the startOn checks of both schemas reject it: the regex bounds the
month to at most 12. -/
theorem claimed_date_shape_refuted :
    ClaimedDateShape "2021-13-5" ∧
    validateBag taskUpdateSchema [("startOn", JSON.str "2021-13-5")] ≠ [] ∧
    validateBag projectSchema
      [("name", JSON.str "x"), ("startOn", JSON.str "2021-13-5")] ≠ [] :=
  ⟨⟨['2', '0', '2', '1'], ['1', '3'], ['5'], by decide⟩, by decide, by decide⟩

/-- C8 amended: a string bound to a date field (startOn or endOn of the
project-creation schema, startOn or dueOn of the task-update schema)
passes validation exactly when it is a four-digit year, a month 1 to 12
and a day 1 to 31, each written with one or two digits (leading zero
optional) and separated by hyphens, optionally followed by one trailing
newline that the dollar anchor of Python re tolerates; calendar validity
is not cross-checked, so the impossible date 2021-02-30 is accepted. -/
theorem date_fields_accept_iff (s : String) :
    (validateBag projectSchema [("name", JSON.str "x"), ("startOn", JSON.str s)] = [] ↔
       AmendedDateShape s) ∧
    (validateBag projectSchema [("name", JSON.str "x"), ("endOn", JSON.str s)] = [] ↔
       AmendedDateShape s) ∧
    (validateBag taskUpdateSchema [("startOn", JSON.str s)] = [] ↔
       AmendedDateShape s) ∧
    (validateBag taskUpdateSchema [("dueOn", JSON.str s)] = [] ↔
       AmendedDateShape s) ∧
    AmendedDateShape "2021-02-30" ∧
    validateBag taskUpdateSchema [("startOn", JSON.str "2021-02-30")] = [] := by
  have hds := dateCheck_iff s
  refine ⟨?_, ?_, ?_, ?_, (dateCheck_iff "2021-02-30").mp (by decide), by decide⟩ <;>
  · rw [← hds]
    cases h : Pat.date.check s <;>
      simp [validateBag, unknownPart, requiredPart, propsPart, projectSchema,
            taskUpdateSchema, checkProp, lookupStr, checkFieldC, checkLeaf,
            strPatLeaf, strLeaf, typeMatches, h]

/-- Witness for C8 at the concrete date 2023-1-15. -/
theorem date_fields_accept_iff_witness :
    validateBag taskUpdateSchema [("startOn", JSON.str "2023-1-15")] = [] ∧
    AmendedDateShape "2023-1-15" :=
  ⟨by decide, ((date_fields_accept_iff "2023-1-15").2.2.1).mp (by decide)⟩
